import Mathlib

/-!
Verification of the SPOP (Stream Processing Offload Protocol) frame codec
library against its natural-language specification.

The development is a shallow embedding of the Rust sources:
  * `src/lib.rs`      — `encode_varint`, `decode_varint`
  * `src/types.rs`    — `TypedData`, `TypedData::to_bytes`, `typed_data`
  * `src/parser.rs`   — `parse_varint`, `parse_typed_data`, `parse_string`,
                        `parse_key_value_pair(s)`, `parse_argument`,
                        `parse_message_data`, `parse_single_message`,
                        `parse_list_of_messages`, `parse_frame`
  * `src/frame.rs`    — `FrameType`, `FrameFlags`, `Metadata`, `Frame`,
                        `FramePayload`, `VarScope`, `Action`, `Frame::serialize`
  * `src/serialize.rs`— `AgentHello` and its `to_frame` / `serialize`
  * `src/codec.rs`    — `SpopCodec::decode`
  * `src/frames/agent_hello.rs` — the `SpopFrame` implementation's `metadata`

Bytes are modelled as `Nat`; genuine wire bytes are `< 256`.  Machine
integers use explicit `% 2 ^ 64` (resp. `% 2 ^ 32`, `% 256`) where the Rust
code can wrap.  nom parser results are modelled by `PResult`:
`nom::Err::Incomplete` (produced by `streaming` combinators) becomes
`.needMore`, while `nom::Err::Error`/`nom::Err::Failure` (produced by
`complete` combinators and explicit `Error::new(..)` returns) become
`.fail`.  The sources mix the two families; the embedding reproduces each
call site's choice faithfully.
-/

namespace Spop

/-- Result of a nom parser: `ok remaining value`, `needMore`
(`nom::Err::Incomplete`, from `streaming` combinators) or `fail`
(`nom::Err::Error` / `nom::Err::Failure`). -/
inductive PResult (α : Type) where
  | ok (rest : List Nat) (val : α)
  | needMore
  | fail
deriving DecidableEq, Repr

/-- `Functor.map` on the `ok` value of a `PResult`. -/
def PResult.map {α β : Type} (f : α → β) : PResult α → PResult β
  | .ok rest v => .ok rest (f v)
  | .needMore => .needMore
  | .fail => .fail

/-! ## Varint codec (`src/lib.rs`, lines 25–69)

`encode_varint` is the SPOP Peers encoding: values below 240 are one byte;
otherwise the first byte is `(i | 240) as u8` and the remainder
`(i - 240) >> 4` is emitted in the `while` loop below, 7 bits per byte with
the high bit marking continuation.  `decode_varint` accumulates
`next_byte << shift` for `shift = 4, 11, 18, …`. -/

/-- The `while i >= 128 { … }` loop of `encode_varint` followed by the final
`buf.push(i as u8)`: while the remainder is at least 128 push
`(i | 128) as u8` and continue with `(i - 128) >> 7`. -/
def encodeLoop (r : Nat) : List Nat :=
  if _h : 128 ≤ r then ((r ||| 128) % 256) :: encodeLoop ((r - 128) >>> 7)
  else [r]
termination_by r
decreasing_by
  have h1 : (r - 128) >>> 7 ≤ r - 128 := by
    rw [Nat.shiftRight_eq_div_pow]
    exact Nat.div_le_self _ _
  omega

/-- `encode_varint` (`src/lib.rs:25`): one byte for `i < 240`, otherwise the
header byte `(i | 240) as u8` followed by the continuation loop on
`(i - 240) >> 4`. -/
def encode_varint (i : Nat) : List Nat :=
  if i < 240 then [i]
  else ((i ||| 240) % 256) :: encodeLoop ((i - 240) >>> 4)

/-- The accumulation loop shared by `decode_varint` (`src/lib.rs:56`) and
`parse_varint` (`src/parser.rs:189`): `value += (next_byte as u64) << shift;
shift += 7;` until a byte below 128 is read.  The `u64` addition wraps, and a
shift amount of 64 or more is reduced `mod 64` (release-build semantics of an
overflowing `<<`; debug builds would panic instead).  Running out of input
yields `none` — the enclosing function turns that into the error kind of its
`be_u8` flavour. -/
def varintCont : List Nat → Nat → Nat → Option (List Nat × Nat)
  | [], _, _ => none
  | b :: rest, value, shift =>
    let value := (value + (b <<< (shift % 64))) % 2 ^ 64
    if b < 128 then some (rest, value) else varintCont rest value (shift + 7)

/-- `decode_varint` (`src/lib.rs:46`).  It reads bytes with
`nom::number::complete::be_u8`, so a truncated input produces
`Err::Error(Eof)` — modelled as `.fail`. -/
def decode_varint (input : List Nat) : PResult Nat :=
  match input with
  | [] => .fail
  | b :: rest =>
    if b < 240 then .ok rest b
    else
      match varintCont rest b 4 with
      | some (r, v) => .ok r v
      | none => .fail

/-- `parse_varint` (`src/parser.rs:179`).  Identical arithmetic to
`decode_varint`, but it reads bytes with `nom::number::streaming::be_u8`, so
a truncated input produces `Err::Incomplete` — modelled as `.needMore`. -/
def parse_varint (input : List Nat) : PResult Nat :=
  match input with
  | [] => .needMore
  | b :: rest =>
    if b < 240 then .ok rest b
    else
      match varintCont rest b 4 with
      | some (r, v) => .ok r v
      | none => .needMore

/-! ### Varint round-trip -/

/-- Bitwise-or commutes with truncation to `n` low bits. -/
theorem or_mod_two_pow (a b n : Nat) :
    (a ||| b) % 2 ^ n = (a % 2 ^ n) ||| (b % 2 ^ n) := by
  apply Nat.eq_of_testBit_eq
  intro i
  simp only [Nat.testBit_mod_two_pow, Nat.testBit_or]
  by_cases h : i < n <;> simp [h]

set_option maxRecDepth 8192 in
theorem or240_byte : ∀ lo < 256, lo ||| 240 = 240 + lo % 16 := by decide

set_option maxRecDepth 8192 in
theorem or128_byte : ∀ lo < 256, lo ||| 128 = 128 + lo % 128 := by decide

/-- `(i | 240) as u8` is `240` plus the low nibble of `i`. -/
theorem or240_mod (x : Nat) : (x ||| 240) % 256 = 240 + x % 16 := by
  have h256 : (256 : Nat) = 2 ^ 8 := by norm_num
  have h1 : (x ||| 240) % 256 = (x % 256) ||| 240 := by
    rw [h256, or_mod_two_pow]
    norm_num
  rw [h1, or240_byte (x % 256) (Nat.mod_lt _ (by norm_num)),
    Nat.mod_mod_of_dvd x (by norm_num : (16 : Nat) ∣ 256)]

/-- `(i | 128) as u8` is `128` plus the low 7 bits of `i`. -/
theorem or128_mod (x : Nat) : (x ||| 128) % 256 = 128 + x % 128 := by
  have h256 : (256 : Nat) = 2 ^ 8 := by norm_num
  have h1 : (x ||| 128) % 256 = (x % 256) ||| 128 := by
    rw [h256, or_mod_two_pow]
    norm_num
  rw [h1, or128_byte (x % 256) (Nat.mod_lt _ (by norm_num)),
    Nat.mod_mod_of_dvd x (by norm_num : (128 : Nat) ∣ 256)]

/-- Decoding the continuation bytes produced by `encodeLoop r` adds exactly
`r * 2 ^ shift` to the accumulator, provided the final value fits in 64
bits (which holds for every value a `u64` encoder can produce). -/
theorem varintCont_encodeLoop :
    ∀ (r value shift : Nat) (rest : List Nat),
      value + r * 2 ^ shift < 2 ^ 64 →
      varintCont (encodeLoop r ++ rest) value shift =
        some (rest, value + r * 2 ^ shift) := by
  intro r
  induction r using Nat.strong_induction_on with
  | _ r ih =>
    intro value shift rest hlt
    rw [encodeLoop]
    by_cases h : 128 ≤ r
    · simp only [h, dite_true, List.cons_append, varintCont]
      have hbyte : (r ||| 128) % 256 = 128 + r % 128 := or128_mod r
      have hshift : shift < 57 := by
        by_contra hs
        have : 2 ^ 64 ≤ r * 2 ^ shift := by
          calc 2 ^ 64 = 2 ^ 7 * 2 ^ 57 := by norm_num
          _ ≤ r * 2 ^ shift := by
            apply Nat.mul_le_mul (by omega)
            exact Nat.pow_le_pow_right (by omega) (by omega)
        omega
      have hsm : shift % 64 = shift := Nat.mod_eq_of_lt (by omega)
      have hble : 128 + r % 128 ≤ r := by omega
      have hstep : value + ((r ||| 128) % 256) <<< (shift % 64) =
          value + (128 + r % 128) * 2 ^ shift := by
        rw [hbyte, hsm, Nat.shiftLeft_eq]
      have hbound : value + (128 + r % 128) * 2 ^ shift < 2 ^ 64 := by
        have : (128 + r % 128) * 2 ^ shift ≤ r * 2 ^ shift :=
          Nat.mul_le_mul_right _ hble
        omega
      rw [hstep, Nat.mod_eq_of_lt hbound]
      have hge : ¬ 128 + r % 128 < 128 := by omega
      have hb2 : ¬ (r ||| 128) % 256 < 128 := by rw [hbyte]; omega
      simp only [hb2, if_false]
      have hr7 : (r - 128) >>> 7 = (r - 128) / 128 := by
        rw [Nat.shiftRight_eq_div_pow]
      have hkey : 128 + r % 128 + 128 * ((r - 128) / 128) = r := by omega
      have harith : value + (128 + r % 128) * 2 ^ shift +
          (r - 128) / 128 * 2 ^ (shift + 7) = value + r * 2 ^ shift := by
        have e : (128 + r % 128) * 2 ^ shift +
            (r - 128) / 128 * 2 ^ (shift + 7) = r * 2 ^ shift := by
          calc (128 + r % 128) * 2 ^ shift + (r - 128) / 128 * 2 ^ (shift + 7)
              = (128 + r % 128 + 128 * ((r - 128) / 128)) * 2 ^ shift := by
                rw [pow_add]; ring
            _ = r * 2 ^ shift := by rw [hkey]
        omega
      have hdec : (r - 128) / 128 < r := by
        have := Nat.div_le_self (r - 128) 128
        omega
      rw [hr7, ih ((r - 128) / 128) (by omega) _ (shift + 7) rest (by omega)]
      rw [harith]
    · simp only [h, dite_false, List.cons_append, varintCont]
      have hr : r < 128 := by omega
      rcases Nat.eq_zero_or_pos r with hz | hpos
      · subst hz
        have hv : (value + 0 <<< (shift % 64)) % 2 ^ 64 = value := by
          rw [Nat.zero_shiftLeft, Nat.add_zero]
          exact Nat.mod_eq_of_lt (by omega)
        have hb : value < 18446744073709551616 := by omega
        simp [hv, hb]
      · have hshift : shift < 64 := by
          by_contra hs
          have : 2 ^ 64 ≤ r * 2 ^ shift := by
            calc 2 ^ 64 ≤ 2 ^ shift := Nat.pow_le_pow_right (by omega) (by omega)
            _ ≤ r * 2 ^ shift := Nat.le_mul_of_pos_left _ hpos
          omega
        have hsm : shift % 64 = shift := Nat.mod_eq_of_lt hshift
        rw [hsm, Nat.shiftLeft_eq, Nat.mod_eq_of_lt hlt]
        simp [hr]

/-- Core round-trip: `decode_varint (encode_varint x ++ rest)` returns `x`
and `rest`, for every `u64` value `x`. -/
theorem decode_encode_varint (x : Nat) (rest : List Nat) (h : x < 2 ^ 64) :
    decode_varint (encode_varint x ++ rest) = .ok rest x := by
  rw [encode_varint]
  by_cases hx : x < 240
  · simp [decode_varint, hx]
  · simp only [hx, if_false, List.cons_append, decode_varint]
    have hb : (x ||| 240) % 256 = 240 + x % 16 := or240_mod x
    have hb2 : ¬ (x ||| 240) % 256 < 240 := by omega
    simp only [hb2, if_false]
    have hr4 : (x - 240) >>> 4 = (x - 240) / 16 := by
      rw [Nat.shiftRight_eq_div_pow]
    have hkey : 240 + x % 16 + ((x - 240) / 16) * 2 ^ 4 = x := by
      have : (2 : Nat) ^ 4 = 16 := by norm_num
      omega
    rw [hr4, hb, varintCont_encodeLoop ((x - 240) / 16) (240 + x % 16) 4 rest
      (by omega), hkey]

/-! ## UTF-8 (`String::from_utf8` / `String::from_utf8_lossy`)

`parse_string` in `src/parser.rs` uses strict `String::from_utf8`;
`typed_data` / `parse_typed_data` use `String::from_utf8_lossy`.  Rust
strings are modelled by their UTF-8 byte lists.  `utf8Valid` is the standard
UTF-8 validity check; `fromUtf8Lossy` follows the standard substitution of
maximal subparts, emitting `0xEF 0xBF 0xBD` (U+FFFD) for each ill-formed
maximal subpart.  On valid input — the only case the theorems below rely
on — `fromUtf8Lossy` is the identity. -/

/-- A UTF-8 continuation byte: `0x80 ≤ b ≤ 0xBF`. -/
def utf8Cont (b : Nat) : Bool := 0x80 ≤ b && b ≤ 0xBF

/-- Valid (first, second) byte pairs of a three-byte UTF-8 sequence. -/
def utf8Pair3 (b c1 : Nat) : Bool :=
  (b == 0xE0 && 0xA0 ≤ c1 && c1 ≤ 0xBF) ||
  (0xE1 ≤ b && b ≤ 0xEC && 0x80 ≤ c1 && c1 ≤ 0xBF) ||
  (b == 0xED && 0x80 ≤ c1 && c1 ≤ 0x9F) ||
  (0xEE ≤ b && b ≤ 0xEF && 0x80 ≤ c1 && c1 ≤ 0xBF)

/-- Valid (first, second) byte pairs of a four-byte UTF-8 sequence. -/
def utf8Pair4 (b c1 : Nat) : Bool :=
  (b == 0xF0 && 0x90 ≤ c1 && c1 ≤ 0xBF) ||
  (0xF1 ≤ b && b ≤ 0xF3 && 0x80 ≤ c1 && c1 ≤ 0xBF) ||
  (b == 0xF4 && 0x80 ≤ c1 && c1 ≤ 0x8F)

/-- UTF-8 validity of a byte list (the check done by `String::from_utf8`). -/
def utf8Valid : List Nat → Bool
  | [] => true
  | b :: rest =>
    if b < 0x80 then utf8Valid rest
    else if b < 0xC2 then false
    else if b ≤ 0xDF then
      match rest with
      | c1 :: r => utf8Cont c1 && utf8Valid r
      | [] => false
    else if b ≤ 0xEF then
      match rest with
      | c1 :: c2 :: r => utf8Pair3 b c1 && utf8Cont c2 && utf8Valid r
      | _ => false
    else if b ≤ 0xF4 then
      match rest with
      | c1 :: c2 :: c3 :: r =>
        utf8Pair4 b c1 && utf8Cont c2 && utf8Cont c3 && utf8Valid r
      | _ => false
    else false

/-- The three UTF-8 bytes of U+FFFD REPLACEMENT CHARACTER. -/
def replacementChar : List Nat := [0xEF, 0xBF, 0xBD]

/-- `String::from_utf8_lossy` on a byte list: well-formed sequences are
copied, each maximal ill-formed subpart becomes one U+FFFD. -/
def fromUtf8Lossy : List Nat → List Nat
  | [] => []
  | b :: rest =>
    if b < 0x80 then b :: fromUtf8Lossy rest
    else if b < 0xC2 then replacementChar ++ fromUtf8Lossy rest
    else if b ≤ 0xDF then
      match rest with
      | [] => replacementChar
      | c1 :: r =>
        if utf8Cont c1 then b :: c1 :: fromUtf8Lossy r
        else replacementChar ++ fromUtf8Lossy (c1 :: r)
    else if b ≤ 0xEF then
      match rest with
      | [] => replacementChar
      | c1 :: r =>
        if utf8Pair3 b c1 then
          match r with
          | [] => replacementChar
          | c2 :: r2 =>
            if utf8Cont c2 then b :: c1 :: c2 :: fromUtf8Lossy r2
            else replacementChar ++ fromUtf8Lossy (c2 :: r2)
        else replacementChar ++ fromUtf8Lossy (c1 :: r)
    else if b ≤ 0xF4 then
      match rest with
      | [] => replacementChar
      | c1 :: r =>
        if utf8Pair4 b c1 then
          match r with
          | [] => replacementChar
          | c2 :: r2 =>
            if utf8Cont c2 then
              match r2 with
              | [] => replacementChar
              | c3 :: r3 =>
                if utf8Cont c3 then b :: c1 :: c2 :: c3 :: fromUtf8Lossy r3
                else replacementChar ++ fromUtf8Lossy (c3 :: r3)
            else replacementChar ++ fromUtf8Lossy (c2 :: r2)
        else replacementChar ++ fromUtf8Lossy (c1 :: r)
    else replacementChar ++ fromUtf8Lossy rest

/-! ## Machine-integer casts used by `src/types.rs` -/

/-- Rust `as u64` applied to a signed value (`i32 as u64` sign-extends,
`i64 as u64` reinterprets): the two's-complement bit pattern. -/
def u64ofInt (v : Int) : Nat := (v % (2 : Int) ^ 64).toNat

/-- Rust `as i32` applied to a `u64`: truncate to 32 bits and reinterpret as
two's complement. -/
def i32ofU64 (w : Nat) : Int :=
  if w % 2 ^ 32 < 2 ^ 31 then ((w % 2 ^ 32 : Nat) : Int)
  else ((w % 2 ^ 32 : Nat) : Int) - 2 ^ 32

/-- Rust `as i64` applied to a `u64`: reinterpret as two's complement. -/
def i64ofU64 (w : Nat) : Int :=
  if w % 2 ^ 64 < 2 ^ 63 then ((w % 2 ^ 64 : Nat) : Int)
  else ((w % 2 ^ 64 : Nat) : Int) - 2 ^ 64

/-! ## TypedData (`src/types.rs`) -/

/-- `TypedData` (`src/types.rs:46`).  `Ipv4Addr`/`Ipv6Addr` are modelled by
their octets, Rust `String`s by their UTF-8 bytes. -/
inductive TypedData where
  | Null
  | Bool (b : Bool)
  | Int32 (v : Int)
  | UInt32 (v : Nat)
  | Int64 (v : Int)
  | UInt64 (v : Nat)
  | IPv4 (o0 o1 o2 o3 : Nat)
  | IPv6 (octets : List Nat)
  | String (bytes : List Nat)
  | Binary (bytes : List Nat)
deriving DecidableEq, Repr

/-- `TypedData::to_bytes` (`src/types.rs:67`).  Type ids go in the low
nibble; the `Bool` flag goes in the high nibble; integers are the varint of
their `as u64` cast. -/
def TypedData.to_bytes : TypedData → List Nat
  | .Null => [0x00]
  | .Bool b => [((if b then 0x01 else 0x00) <<< 4) ||| 0x01]
  | .Int32 v => 0x02 :: encode_varint (u64ofInt v)
  | .UInt32 v => 0x03 :: encode_varint v
  | .Int64 v => 0x04 :: encode_varint (u64ofInt v)
  | .UInt64 v => 0x05 :: encode_varint v
  | .IPv4 o0 o1 o2 o3 => [0x06, o0, o1, o2, o3]
  | .IPv6 octets => 0x07 :: octets
  | .String s => 0x08 :: (encode_varint s.length ++ s)
  | .Binary bs => 0x09 :: (encode_varint bs.length ++ bs)

/-- `typed_data` (`src/types.rs:115`): the typed-data decoder of `types.rs`.
The type id is the LOW nibble of the header byte, the flags the HIGH nibble.
It uses `complete` combinators and explicit `Error::new(.., Eof)` returns,
so every failure is `.fail`. -/
def typed_data (input : List Nat) : PResult TypedData :=
  match input with
  | [] => .fail
  | b :: rest =>
    let type_id := b &&& 0x0F
    let flags := b >>> 4
    match type_id with
    | 0 => .ok rest .Null
    | 1 => .ok rest (.Bool ((flags &&& 1) != 0))
    | 2 => (decode_varint rest).map (fun v => .Int32 (i32ofU64 v))
    | 3 => (decode_varint rest).map (fun v => .UInt32 (v % 2 ^ 32))
    | 4 => (decode_varint rest).map (fun v => .Int64 (i64ofU64 v))
    | 5 => (decode_varint rest).map (fun v => .UInt64 v)
    | 6 =>
      if rest.length < 4 then .fail
      else
        match rest with
        | b0 :: b1 :: b2 :: b3 :: r => .ok r (.IPv4 b0 b1 b2 b3)
        | _ => .fail
    | 7 =>
      if rest.length < 16 then .fail
      else .ok (rest.drop 16) (.IPv6 (rest.take 16))
    | 8 =>
      match decode_varint rest with
      | .ok r len =>
        if r.length < len then .fail
        else .ok (r.drop len) (.String (fromUtf8Lossy (r.take len)))
      | .needMore => .needMore
      | .fail => .fail
    | 9 =>
      match decode_varint rest with
      | .ok r len =>
        if r.length < len then .fail
        else .ok (r.drop len) (.Binary (r.take len))
      | .needMore => .needMore
      | .fail => .fail
    | _ => .fail

/-! ### TypedData round-trip -/

theorem u64ofInt_lt (v : Int) : u64ofInt v < 2 ^ 64 := by
  unfold u64ofInt
  omega

theorem i32ofU64_u64ofInt (v : Int) (h1 : -(2 ^ 31) ≤ v) (h2 : v < 2 ^ 31) :
    i32ofU64 (u64ofInt v) = v := by
  unfold i32ofU64 u64ofInt
  split <;> omega

theorem i64ofU64_u64ofInt (v : Int) (h1 : -(2 ^ 63) ≤ v) (h2 : v < 2 ^ 63) :
    i64ofU64 (u64ofInt v) = v := by
  unfold i64ofU64 u64ofInt
  split <;> omega

/-- The values of `TypedData` that the Rust type system can construct:
integer fields within the range of their machine type, 16 octets in an
`Ipv6Addr`, octet values of an `Ipv4Addr` below 256, valid UTF-8 in a
`String`, and lengths expressible as `u64`. -/
def TypedData.wf : TypedData → Prop
  | .Null => True
  | .Bool _ => True
  | .Int32 v => -(2 ^ 31) ≤ v ∧ v < 2 ^ 31
  | .UInt32 v => v < 2 ^ 32
  | .Int64 v => -(2 ^ 63) ≤ v ∧ v < 2 ^ 63
  | .UInt64 v => v < 2 ^ 64
  | .IPv4 o0 o1 o2 o3 => o0 < 256 ∧ o1 < 256 ∧ o2 < 256 ∧ o3 < 256
  | .IPv6 octets => octets.length = 16
  | .String s => fromUtf8Lossy s = s ∧ s.length < 2 ^ 64
  | .Binary bs => bs.length < 2 ^ 64

/-- Core TypedData round-trip (`types.rs` encoder against the `types.rs`
decoder): decoding the encoding of any constructible value returns that
value with nothing left over. -/
theorem typed_data_to_bytes (v : TypedData) (hwf : v.wf) :
    typed_data v.to_bytes = .ok [] v := by
  cases v with
  | Null => decide
  | Bool b => cases b <;> decide
  | Int32 v =>
    obtain ⟨h1, h2⟩ := hwf
    have hdec : decode_varint (encode_varint (u64ofInt v)) = .ok [] (u64ofInt v) := by
      have h := decode_encode_varint (u64ofInt v) [] (u64ofInt_lt v)
      simpa using h
    simp [TypedData.to_bytes, typed_data, hdec, PResult.map, i32ofU64_u64ofInt v h1 h2]
  | UInt32 v =>
    have hv : v < 2 ^ 32 := hwf
    have hdec : decode_varint (encode_varint v) = .ok [] v := by
      have h := decode_encode_varint v [] (by omega)
      simpa using h
    simp [TypedData.to_bytes, typed_data, hdec, PResult.map]
    omega
  | Int64 v =>
    obtain ⟨h1, h2⟩ := hwf
    have hdec : decode_varint (encode_varint (u64ofInt v)) = .ok [] (u64ofInt v) := by
      have h := decode_encode_varint (u64ofInt v) [] (u64ofInt_lt v)
      simpa using h
    simp [TypedData.to_bytes, typed_data, hdec, PResult.map, i64ofU64_u64ofInt v h1 h2]
  | UInt64 v =>
    have hdec : decode_varint (encode_varint v) = .ok [] v := by
      have h := decode_encode_varint v [] hwf
      simpa using h
    simp [TypedData.to_bytes, typed_data, hdec, PResult.map]
  | IPv4 o0 o1 o2 o3 => simp [TypedData.to_bytes, typed_data]
  | IPv6 octets =>
    have hlen : octets.length = 16 := hwf
    have h1 : ¬ octets.length < 16 := by omega
    have ht : octets.take 16 = octets := by
      rw [← hlen, List.take_length]
    have hd : octets.drop 16 = [] := by
      rw [← hlen, List.drop_length]
    simp [TypedData.to_bytes, typed_data, h1, ht, hd]
  | String s =>
    obtain ⟨hval, hlen⟩ := hwf
    have hdec := decode_encode_varint s.length s hlen
    simp [TypedData.to_bytes, typed_data, hdec, List.take_length, List.drop_length, hval]
  | Binary bs =>
    have hdec := decode_encode_varint bs.length bs hwf
    simp [TypedData.to_bytes, typed_data, hdec, List.take_length, List.drop_length]

/-! ## The frame parser (`src/parser.rs`)

`parse_frame` reads the length prefix with `streaming::be_u32`, then
extracts the frame body with `bytes::complete::take` (which returns
`Err::Error(Eof)`, not `Incomplete`, when the body is short).  The body is
parsed with `streaming` number combinators and the payload sub-parsers
below.  The `Frame` struct built by `parser.rs` (frame type, raw `u32`
flags, ids, payload) is modelled as `ParsedFrame`; its payload enum
(variants `KeyValuePairs` and `Messages`) as `ParsedPayload`. -/

/-- Big-endian `u32` from four bytes (`nom` `be_u32`). -/
def beU32 (b0 b1 b2 b3 : Nat) : Nat :=
  (b0 <<< 24) ||| (b1 <<< 16) ||| (b2 <<< 8) ||| b3

/-- Big-endian `u64` from eight bytes (`nom` `be_u64`). -/
def beU64 (b0 b1 b2 b3 b4 b5 b6 b7 : Nat) : Nat :=
  (b0 <<< 56) ||| (b1 <<< 48) ||| (b2 <<< 40) ||| (b3 <<< 32) |||
  (b4 <<< 24) ||| (b5 <<< 16) ||| (b6 <<< 8) ||| b7

/-- `parse_typed_data` (`src/parser.rs:210`).  NOTE: unlike `typed_data` in
`types.rs`, this decoder takes the type id from the HIGH nibble
(`type_and_flags >> 4`) and the flags from the LOW nibble
(`type_and_flags & 0x0F`).  Varints are read with the streaming
`parse_varint`; the empty-input guard and the length guards return
`Error(Eof)` (`.fail`). -/
def parse_typed_data (input : List Nat) : PResult TypedData :=
  match input with
  | [] => .fail
  | b :: rest =>
    let type_id := b >>> 4
    let flags := b &&& 0x0F
    match type_id with
    | 0 => .ok rest .Null
    | 1 => .ok rest (.Bool ((flags &&& 1) != 0))
    | 2 => (parse_varint rest).map (fun v => .Int32 (i32ofU64 v))
    | 3 => (parse_varint rest).map (fun v => .UInt32 (v % 2 ^ 32))
    | 4 => (parse_varint rest).map (fun v => .Int64 (i64ofU64 v))
    | 5 => (parse_varint rest).map (fun v => .UInt64 v)
    | 6 =>
      if rest.length < 4 then .fail
      else
        match rest with
        | b0 :: b1 :: b2 :: b3 :: r => .ok r (.IPv4 b0 b1 b2 b3)
        | _ => .fail
    | 7 =>
      if rest.length < 16 then .fail
      else .ok (rest.drop 16) (.IPv6 (rest.take 16))
    | 8 =>
      match parse_varint rest with
      | .ok r len =>
        if r.length < len then .fail
        else .ok (r.drop len) (.String (fromUtf8Lossy (r.take len)))
      | .needMore => .needMore
      | .fail => .fail
    | 9 =>
      match parse_varint rest with
      | .ok r len =>
        if r.length < len then .fail
        else .ok (r.drop len) (.Binary (r.take len))
      | .needMore => .needMore
      | .fail => .fail
    | _ => .fail

/-- `parse_string` (`src/parser.rs:304`): varint length, explicit
`Error(Eof)` length guard, then STRICT `String::from_utf8` (invalid UTF-8 is
`Error(Tag)` — `.fail`). -/
def parse_string (input : List Nat) : PResult (List Nat) :=
  match parse_varint input with
  | .ok r len =>
    if r.length < len then .fail
    else if utf8Valid (r.take len) then .ok (r.drop len) (r.take len)
    else .fail
  | .needMore => .needMore
  | .fail => .fail

/-- `parse_key_value_pair` (`src/parser.rs:279`): a KV-NAME string followed
by a KV-VALUE typed-data. -/
def parse_key_value_pair (input : List Nat) : PResult (List Nat × TypedData) :=
  match parse_string input with
  | .ok r key =>
    match parse_typed_data r with
    | .ok r2 value => .ok r2 (key, value)
    | .needMore => .needMore
    | .fail => .fail
  | .needMore => .needMore
  | .fail => .fail

/-- `many0(complete(parse_key_value_pair))`: iterate the pair parser until it
fails (`complete` converts a `needMore` into a failure, which stops the
loop).  The fuel argument bounds the iteration count; since a successful
`parse_key_value_pair` always consumes at least one byte, fuel
`input.length + 1` is never exhausted. -/
def many0KV : Nat → List Nat → List Nat × List (List Nat × TypedData)
  | 0, input => (input, [])
  | fuel + 1, input =>
    match parse_key_value_pair input with
    | .ok r v =>
      let rec2 := many0KV fuel r
      (rec2.1, v :: rec2.2)
    | _ => (input, [])


/-- `Message` (`src/frame.rs:240` and the struct `parser.rs` builds): a
message name and its named arguments. -/
structure Message where
  name : List Nat
  args : List (List Nat × TypedData)
deriving DecidableEq, Repr

/-- `ParsedPayload`: the `FramePayload` enum that `parser.rs` builds
(variants `KeyValuePairs` and `Messages`). -/
inductive ParsedPayload where
  | KeyValuePairs (pairs : List (List Nat × TypedData))
  | Messages (msgs : List Message)
deriving DecidableEq, Repr

/-- `parse_key_value_pairs` (`src/parser.rs:290`):
`all_consuming(many0(complete(parse_key_value_pair)))`. -/
def parse_key_value_pairs (input : List Nat) : PResult ParsedPayload :=
  let res := many0KV (input.length + 1) input
  if res.1 = [] then .ok [] (.KeyValuePairs res.2) else .fail

/-- `parse_argument` (`src/parser.rs:319`): identical to
`parse_key_value_pair` (name string + typed data). -/
def parse_argument (input : List Nat) : PResult (List Nat × TypedData) :=
  match parse_string input with
  | .ok r name =>
    match parse_typed_data r with
    | .ok r2 value => .ok r2 (name, value)
    | .needMore => .needMore
    | .fail => .fail
  | .needMore => .needMore
  | .fail => .fail

/-- `count(parse_argument, n)`: exactly `n` arguments. -/
def countArgs : Nat → List Nat → PResult (List (List Nat × TypedData))
  | 0, input => .ok input []
  | n + 1, input =>
    match parse_argument input with
    | .ok r v => (countArgs n r).map (fun vs => v :: vs)
    | .needMore => .needMore
    | .fail => .fail

/-- `parse_message_data` (`src/parser.rs:326`): a message name string, then a
4-byte big-endian `num_args` (read with `streaming::be_u32`), then exactly
`num_args` arguments. -/
def parse_message_data (input : List Nat) : PResult Message :=
  match parse_string input with
  | .ok r name =>
    match r with
    | a0 :: a1 :: a2 :: a3 :: r2 =>
      let num_args := beU32 a0 a1 a2 a3
      (countArgs num_args r2).map (fun args => ⟨name, args⟩)
    | _ => .needMore
  | .needMore => .needMore
  | .fail => .fail

/-- `parse_single_message` (`src/parser.rs:334`): an 8-byte big-endian
message length (read with `streaming::be_u64`), an `Error(Eof)` length
guard, then `all_consuming(parse_message_data)` over exactly that many
bytes. -/
def parse_single_message (input : List Nat) : PResult Message :=
  match input with
  | b0 :: b1 :: b2 :: b3 :: b4 :: b5 :: b6 :: b7 :: rest =>
    let message_length := beU64 b0 b1 b2 b3 b4 b5 b6 b7
    if rest.length < message_length then .fail
    else
      match parse_message_data (rest.take message_length) with
      | .ok r m => if r = [] then .ok (rest.drop message_length) m else .fail
      | .needMore => .needMore
      | .fail => .fail
  | _ => .needMore

/-- `count(parse_single_message, n)`: exactly `n` messages. -/
def countMsgs : Nat → List Nat → PResult (List Message)
  | 0, input => .ok input []
  | n + 1, input =>
    match parse_single_message input with
    | .ok r m => (countMsgs n r).map (fun ms => m :: ms)
    | .needMore => .needMore
    | .fail => .fail

/-- `parse_list_of_messages` (`src/parser.rs:352`): a 4-byte big-endian
message count (read with `streaming::be_u32`), then that many
length-prefixed messages. -/
def parse_list_of_messages (input : List Nat) : PResult ParsedPayload :=
  match input with
  | c0 :: c1 :: c2 :: c3 :: r =>
    (countMsgs (beU32 c0 c1 c2 c3) r).map ParsedPayload.Messages
  | _ => .needMore

/-- `FrameType` (`src/frame.rs:31`). -/
inductive FrameType where
  | HaproxyHello
  | HaproxyDisconnect
  | Notify
  | AgentHello
  | AgentDisconnect
  | Ack
deriving DecidableEq, Repr

/-- `FrameType::to_u8` (`src/frame.rs:54`). -/
def FrameType.to_u8 : FrameType → Nat
  | .HaproxyHello => 1
  | .HaproxyDisconnect => 2
  | .Notify => 3
  | .AgentHello => 101
  | .AgentDisconnect => 102
  | .Ack => 103

/-- `FrameType::from_u8` (`src/frame.rs:41`); the `Err(ErrorKind::Alt)` case
is `none`. -/
def FrameType.from_u8 (value : Nat) : Option FrameType :=
  match value with
  | 1 => some .HaproxyHello
  | 2 => some .HaproxyDisconnect
  | 3 => some .Notify
  | 101 => some .AgentHello
  | 102 => some .AgentDisconnect
  | 103 => some .Ack
  | _ => none

/-- The `Frame` struct that `parser.rs` constructs (frame type, RAW 4-byte
flags word — `parse_frame` performs no flag validation — stream id, frame
id, payload). -/
structure ParsedFrame where
  frame_type : FrameType
  flags : Nat
  stream_id : Nat
  frame_id : Nat
  payload : ParsedPayload
deriving DecidableEq, Repr

/-- `parse_frame` (`src/parser.rs:18`).  Length prefix via
`streaming::be_u32` (fewer than 4 bytes ⇒ `.needMore`); frame body via
`bytes::complete::take` (fewer than `4 + frame_length` bytes ⇒ `.fail`, NOT
`.needMore`); body fields via streaming combinators; payload dispatch on the
frame type: KV-LIST for HAPROXY-HELLO / HAPROXY-DISCONNECT, LIST-OF-MESSAGES
for NOTIFY, and `Err(Failure)` (`.fail`) for everything else, including the
three agent-side frame types. -/
def parse_frame (input : List Nat) : PResult ParsedFrame :=
  match input with
  | l0 :: l1 :: l2 :: l3 :: rest =>
    let frame_length := beU32 l0 l1 l2 l3
    if rest.length < frame_length then .fail
    else
      let frame := rest.take frame_length
      let remaining := rest.drop frame_length
      match frame with
      | tb :: g0 :: g1 :: g2 :: g3 :: body0 =>
        let flags := beU32 g0 g1 g2 g3
        match parse_varint body0 with
        | .ok body1 stream_id =>
          match parse_varint body1 with
          | .ok body2 frame_id =>
            match FrameType.from_u8 tb with
            | some ft =>
              match ft with
              | .HaproxyHello | .HaproxyDisconnect =>
                match parse_key_value_pairs body2 with
                | .ok r2 payload =>
                  if r2 = [] then
                    .ok remaining ⟨ft, flags, stream_id, frame_id, payload⟩
                  else .fail
                | .needMore => .needMore
                | .fail => .fail
              | .Notify =>
                match parse_list_of_messages body2 with
                | .ok r2 payload =>
                  if r2 = [] then
                    .ok remaining ⟨ft, flags, stream_id, frame_id, payload⟩
                  else .fail
                | .needMore => .needMore
                | .fail => .fail
              | _ => .fail
            | none => .fail
          | .needMore => .needMore
          | .fail => .fail
        | .needMore => .needMore
        | .fail => .fail
      | _ => .needMore
  | _ => .needMore

/-! ## Frame model and serializer (`src/frame.rs`) -/

/-- `FrameFlags` (`src/frame.rs:336`): a `u32` bit set. -/
structure FrameFlags where
  bits : Nat
deriving DecidableEq, Repr

/-- `FrameFlags::new` (`src/frame.rs:339`): bit 0 is FIN, bit 1 is ABORT. -/
def FrameFlags.new (is_fin is_abort : Bool) : FrameFlags :=
  ⟨(if is_fin then 0x00000001 else 0) ||| (if is_abort then 0x00000002 else 0)⟩

/-- `FrameFlags::is_fin` (`src/frame.rs:353`). -/
def FrameFlags.is_fin (f : FrameFlags) : Bool := (f.bits &&& 0x00000001) != 0

/-- `FrameFlags::is_abort` (`src/frame.rs:357`). -/
def FrameFlags.is_abort (f : FrameFlags) : Bool := (f.bits &&& 0x00000002) != 0

/-- `FrameFlags::from_u32` (`src/frame.rs:362`): rejects a flags word with
FIN (bit 0) clear, and rejects any reserved bit (2..31) set.  Both
`Err(ErrorKind::…)` cases are `none`. -/
def FrameFlags.from_u32 (value : Nat) : Option FrameFlags :=
  if value &&& 0x00000001 = 0 then none
  else if value &&& 0xFFFFFFFC != 0 then none
  else some ⟨value⟩

/-- Rust `u32::to_be_bytes` (applied to a `Nat`, wrapping like an `as u32`
cast would). -/
def u32beBytes (n : Nat) : List Nat :=
  [(n >>> 24) % 256, (n >>> 16) % 256, (n >>> 8) % 256, n % 256]

/-- `FrameFlags::to_be_bytes` (`src/frame.rs:376`). -/
def FrameFlags.to_be_bytes (f : FrameFlags) : List Nat := u32beBytes f.bits

/-- `Metadata` (`src/frame.rs:197`). -/
structure Metadata where
  flags : FrameFlags
  stream_id : Nat
  frame_id : Nat
deriving DecidableEq, Repr

/-- `Metadata::serialize` (`src/frame.rs:204`): 4 flag bytes, then the two
ids as varints. -/
def Metadata.serialize (m : Metadata) : List Nat :=
  m.flags.to_be_bytes ++ encode_varint m.stream_id ++ encode_varint m.frame_id

/-- `VarScope` (`src/frame.rs:294`, duplicated in `src/actions.rs:72`). -/
inductive VarScope where
  | Process
  | Session
  | Transaction
  | Request
  | Response
deriving DecidableEq, Repr

/-- `VarScope::to_u8` (`src/frame.rs:304`). -/
def VarScope.to_u8 : VarScope → Nat
  | .Process => 0
  | .Session => 1
  | .Transaction => 2
  | .Request => 3
  | .Response => 4

/-- `Action` (`src/frame.rs:316`, duplicated in `src/actions.rs:56`). -/
inductive Action where
  | SetVar (scope : VarScope) (name : List Nat) (value : TypedData)
  | UnSetVar (scope : VarScope) (name : List Nat)
deriving DecidableEq, Repr

/-- `FramePayload` (`src/frame.rs:233`): the payload enum of `frame.rs`
(NOT the one `parser.rs` builds — see `ParsedPayload`). -/
inductive FramePayload where
  | ListOfMessages (messages : List Message)
  | ListOfActions (actions : List Action)
  | KVList (pairs : List (List Nat × TypedData))
deriving DecidableEq, Repr

/-- `Frame` (`src/frame.rs:79`). -/
structure Frame where
  frame_type : FrameType
  metadata : Metadata
  payload : FramePayload
deriving DecidableEq, Repr

/-- The key/value serialization of `Frame::serialize`'s `KVList` arm
(`src/frame.rs:150`): varint key length, key bytes, then the value — but
ONLY `String` and `UInt32` values are written; every other `TypedData`
variant hits the `_ => {}` arm and contributes no bytes at all. -/
def serializeKV (key : List Nat) (value : TypedData) : List Nat :=
  encode_varint key.length ++ key ++
    (match value with
     | .String s => 0x08 :: (encode_varint s.length ++ s)
     | .UInt32 v => 0x03 :: encode_varint v
     | _ => [])

/-- The set-var serialization of `Frame::serialize`'s `ListOfActions` arm
(`src/frame.rs:113`): SET-VAR byte, NB-ARGS byte (3), scope byte, varint
name length, name bytes, then the value — again only `String` and `UInt32`
values produce bytes (`_ => {}`). -/
def serializeSetVar (scope : VarScope) (name : List Nat) (value : TypedData) :
    List Nat :=
  [0x01, 0x03, scope.to_u8] ++ encode_varint name.length ++ name ++
    (match value with
     | .String s => 0x08 :: (encode_varint s.length ++ s)
     | .UInt32 v => 0x03 :: encode_varint v
     | _ => [])

/-- One action of the `ListOfActions` arm: `UnSetVar` hits the source's
`_ => todo!()` and panics — modelled as the `.error` case of the
`std::io::Result` the function returns. -/
def serializeAction : Action → Except Unit (List Nat)
  | .SetVar scope name value => .ok (serializeSetVar scope name value)
  | .UnSetVar _ _ => .error ()

/-- Sequential serialization of an action list. -/
def serializeActions : List Action → Except Unit (List Nat)
  | [] => .ok []
  | a :: rest =>
    match serializeAction a with
    | .ok bs =>
      match serializeActions rest with
      | .ok bss => .ok (bs ++ bss)
      | .error e => .error e
    | .error e => .error e

/-- `Frame::serialize` (`src/frame.rs:94`): frame type byte, metadata, then
the payload — a SINGLE placeholder byte `0x01` for `ListOfMessages`, the
actions for `ListOfActions`, the key/value pairs for `KVList` — all
prefixed with the body length as 4 big-endian bytes.  No size limit is
checked anywhere; the only non-`Ok` outcome is the `todo!()` panic reached
through an `UnSetVar` action. -/
def Frame.serialize (f : Frame) : Except Unit (List Nat) :=
  match
    (match f.payload with
     | .ListOfMessages _ => Except.ok [0x01]
     | .ListOfActions actions => serializeActions actions
     | .KVList kv_pairs =>
       Except.ok ((kv_pairs.map
         (fun p : List Nat × TypedData => serializeKV p.1 p.2)).flatten))
  with
  | .ok payloadBytes =>
    let serialized := f.frame_type.to_u8 ::
      (f.metadata.serialize ++ payloadBytes)
    .ok (u32beBytes serialized.length ++ serialized)
  | .error e => .error e

/-! ## `AgentHello` and its serializer (`src/serialize.rs`)

`serialize.rs` contains a private copy of `encode_varint` identical to the
one in `lib.rs` (the embedding reuses `encode_varint`), and an `AgentHello`
whose `to_frame` builds the `parser.rs`-era frame struct (`ParsedFrame`)
with a raw flags word of 1. -/

/-- `AgentHello` (`src/serialize.rs:28`): version and capabilities are Rust
strings, modelled as UTF-8 byte lists. -/
structure AgentHello where
  version : List Nat
  max_frame_size : Nat
  capabilities : List (List Nat)
deriving DecidableEq, Repr

/-- The ASCII bytes of `"version"`. -/
def versionKey : List Nat := [0x76, 0x65, 0x72, 0x73, 0x69, 0x6F, 0x6E]

/-- The ASCII bytes of `"max-frame-size"`. -/
def maxFrameSizeKey : List Nat :=
  [0x6D, 0x61, 0x78, 0x2D, 0x66, 0x72, 0x61, 0x6D, 0x65, 0x2D, 0x73, 0x69,
   0x7A, 0x65]

/-- The ASCII bytes of `"capabilities"`. -/
def capabilitiesKey : List Nat :=
  [0x63, 0x61, 0x70, 0x61, 0x62, 0x69, 0x6C, 0x69, 0x74, 0x69, 0x65, 0x73]

/-- `self.capabilities.join(",")`. -/
def joinComma (parts : List (List Nat)) : List Nat :=
  List.intercalate [0x2C] parts

/-- `AgentHello::to_frame` (`src/serialize.rs:36`). -/
def AgentHello.to_frame (ah : AgentHello) : ParsedFrame :=
  { frame_type := .AgentHello
    flags := 1
    stream_id := 0
    frame_id := 0
    payload := .KeyValuePairs
      [(versionKey, .String ah.version),
       (maxFrameSizeKey, .UInt32 ah.max_frame_size),
       (capabilitiesKey, .String (joinComma ah.capabilities))] }

/-- `AgentHello::serialize` (`src/serialize.rs:62`): frame type byte, 4 flag
bytes, the two ids as varints, then the key/value pairs with exactly the
same `String`/`UInt32`-only value serialization as `frame.rs` (the code is
duplicated verbatim in the source), prefixed with the body length.  It
returns `std::io::Result` but has no error path and never checks any frame
size limit. -/
def AgentHello.serialize (ah : AgentHello) : Except Unit (List Nat) :=
  let frame := ah.to_frame
  let kvBytes :=
    match frame.payload with
    | .KeyValuePairs kv_pairs =>
      (kv_pairs.map
        (fun p : List Nat × TypedData => serializeKV p.1 p.2)).flatten
    | _ => []
  let serialized := frame.frame_type.to_u8 ::
    (u32beBytes frame.flags ++ encode_varint frame.stream_id ++
     encode_varint frame.frame_id ++ kvBytes)
  .ok (u32beBytes serialized.length ++ serialized)

/-! ## `SpopCodec::decode` (`src/codec.rs:12`) -/

/-- Outcome of `SpopCodec::decode` on a buffer: a parsed frame with the
buffer advanced past it, `Ok(None)` with the buffer untouched
(`nom::Err::Incomplete`), or an `io::Error` (any other `nom` error). -/
inductive CodecResult where
  | frame (src : List Nat) (f : ParsedFrame)
  | pending (src : List Nat)
  | ioError
deriving DecidableEq, Repr

/-- `SpopCodec::decode` (`src/codec.rs:12`): run `parse_frame`; on success
advance the buffer by the consumed length; on `Incomplete` return `Ok(None)`
without touching the buffer; on any other error return an `io::Error`. -/
def SpopCodec.decode (src : List Nat) : CodecResult :=
  match parse_frame src with
  | .ok remaining f => .frame (src.drop (src.length - remaining.length)) f
  | .needMore => .pending src
  | .fail => .ioError

/-! ## The `SpopFrame` implementations (`src/frames/`) -/

/-- `FrameCapabilities` (`src/frames/capabilities.rs`). -/
inductive FrameCapabilities where
  | Pipelining
deriving DecidableEq, Repr

/-- The `AgentHello` struct of `src/frames/agent_hello.rs` (distinct from
the `AgentHello` of `serialize.rs`). -/
structure AgentHelloFrame where
  version : List Nat
  max_frame_size : Nat
  capabilities : List FrameCapabilities
deriving DecidableEq, Repr

/-- `AgentHello::metadata` (`src/frames/agent_hello.rs:54`): FIN set, ABORT
clear, both ids 0. -/
def AgentHelloFrame.metadata (_ : AgentHelloFrame) : Metadata :=
  { flags := FrameFlags.new true false
    stream_id := 0
    frame_id := 0 }

/-! ## Supporting lemmas and definitions for the claims -/

instance {ε α : Type} [DecidableEq ε] [DecidableEq α] :
    DecidableEq (Except ε α) := fun x y =>
  match x, y with
  | .ok a, .ok b =>
    if h : a = b then isTrue (by rw [h]) else isFalse (by simp [h])
  | .error a, .error b =>
    if h : a = b then isTrue (by rw [h]) else isFalse (by simp [h])
  | .ok _, .error _ => isFalse (by simp)
  | .error _, .ok _ => isFalse (by simp)

/-- A continuation-byte-only tail never terminates the varint loop: the
decoder keeps consuming and finally runs out of input. -/
theorem varintCont_all_high (bs : List Nat) (h : ∀ b ∈ bs, 128 ≤ b) :
    ∀ value shift, varintCont bs value shift = none := by
  induction bs with
  | nil => intro value shift; rfl
  | cons b rest ih =>
    intro value shift
    have hb : 128 ≤ b := h b (List.mem_cons_self b rest)
    have hnb : ¬ b < 128 := by omega
    simp only [varintCont, hnb, if_false]
    exact ih (fun x hx => h x (List.mem_cons_of_mem b hx)) _ _

/-- The `TypedData` variants whose value bytes the serializers of
`frame.rs` / `serialize.rs` silently drop (everything except `String` and
`UInt32`). -/
def isSkippedValue : TypedData → Bool
  | .String _ => false
  | .UInt32 _ => false
  | _ => true

/-- The 56 bytes `AgentHello::serialize` produces for an `AgentHello` with
version `"2.0"`, `max_frame_size = 0` and no capabilities. -/
def agentHelloOversized : List Nat :=
  [0, 0, 0, 52, 101, 0, 0, 0, 1, 0, 0,
   7, 118, 101, 114, 115, 105, 111, 110, 8, 3, 50, 46, 48,
   14, 109, 97, 120, 45, 102, 114, 97, 109, 101, 45, 115, 105, 122, 101, 3, 0,
   12, 99, 97, 112, 97, 98, 105, 108, 105, 116, 105, 101, 115, 8, 0]

/-! ## The claims -/

/-- C1: Varint round-trip — for every `x ∈ [0, 2^64)`, decoding the bytes
produced by `encode_varint` yields exactly `x` with zero bytes remaining. -/
theorem varint_round_trip (x : Nat) (h : x < 2 ^ 64) :
    decode_varint (encode_varint x) = .ok [] x := by
  have hx := decode_encode_varint x [] h
  simpa using hx

/-- Witness for C1 at `x = 4328786160` (the smallest 6-byte value). -/
theorem varint_round_trip_witness :
    4328786160 < 2 ^ 64 ∧
      decode_varint (encode_varint 4328786160) = .ok [] 4328786160 :=
  ⟨by norm_num, varint_round_trip 4328786160 (by norm_num)⟩

/-- C2: the claim says every typed-data decoder takes the type id from the
LOW nibble of the header byte.  `typed_data` (`types.rs`) does — but
`parse_typed_data` (`parser.rs`), the decoder actually used by
`parse_frame`, takes it from the HIGH nibble: the `Bool(false)` encoding
`0x01` decodes as `Null`, and the `UInt32 5` encoding `0x03 0x05` decodes as
`Null` leaving the value byte unconsumed, contradicting the encoder
`TypedData::to_bytes` and the tests of `types.rs`. -/
theorem parse_typed_data_nibble_swap :
    parse_typed_data [0x01] = .ok [] .Null ∧
    typed_data [0x01] = .ok [] (.Bool false) ∧
    parse_typed_data [0x03, 0x05] = .ok [0x05] .Null ∧
    typed_data [0x03, 0x05] = .ok [] (.UInt32 5) := by decide

/-- C3: TypedData round-trip — for every constructible `TypedData` value
(integer fields in the range of their machine type, 16 IPv6 octets, valid
UTF-8 strings, `u64`-sized lengths), decoding the bytes produced by
`TypedData::to_bytes` with `typed_data` yields the value back with zero
bytes remaining; signed integers are stored as the raw varint of their
two's-complement bit pattern (`u64ofInt`) and round-trip exactly. -/
theorem typed_data_round_trip (v : TypedData) (hwf : v.wf) :
    typed_data v.to_bytes = .ok [] v :=
  typed_data_to_bytes v hwf

/-- Witness for C3 at `String "hello"` and `Int32 (-1)`. -/
theorem typed_data_round_trip_witness :
    (TypedData.String [104, 101, 108, 108, 111]).wf ∧
    typed_data (TypedData.String [104, 101, 108, 108, 111]).to_bytes =
      .ok [] (TypedData.String [104, 101, 108, 108, 111]) ∧
    (TypedData.Int32 (-1)).wf ∧
    typed_data (TypedData.Int32 (-1)).to_bytes =
      .ok [] (TypedData.Int32 (-1)) :=
  ⟨⟨by decide, by decide⟩,
   typed_data_round_trip _ ⟨by decide, by decide⟩,
   ⟨by decide, by decide⟩,
   typed_data_round_trip _ ⟨by decide, by decide⟩⟩

/-- C4: the claim says `parse_frame ∘ Frame::serialize` is the identity on
well-formed frames.  It is not: serializing the one-pair KV frame
`{ "a" ↦ UInt32 5 }` produces bytes that `parse_frame` rejects (the value
type byte `0x03` is misread as `Null` by `parse_typed_data`'s high-nibble
dispatch, the varint `5` is left unconsumed, and `all_consuming` fails); and
serializing any NOTIFY frame emits the single placeholder byte `0x01`
instead of a message list. -/
theorem frame_round_trip_failure :
    Frame.serialize ⟨.HaproxyHello, ⟨FrameFlags.new true false, 0, 0⟩,
        .KVList [([0x61], .UInt32 5)]⟩ =
      .ok [0, 0, 0, 11, 1, 0, 0, 0, 1, 0, 0, 1, 0x61, 0x03, 0x05] ∧
    parse_frame [0, 0, 0, 11, 1, 0, 0, 0, 1, 0, 0, 1, 0x61, 0x03, 0x05] =
      .fail ∧
    Frame.serialize ⟨.Notify, ⟨FrameFlags.new true false, 0, 1⟩,
        .ListOfMessages [⟨[0x61], []⟩]⟩ =
      .ok [0, 0, 0, 8, 3, 0, 0, 0, 1, 0, 1, 0x01] := by decide

/-- C5: the claim (and the comment block in `parser.rs` itself) says a
NOTIFY payload is parsed by repeating until end-of-frame: name string, one
`nb_args` byte, then the pairs — with no count or length prefixes.  The
code instead demands a 4-byte big-endian message count, an 8-byte big-endian
per-message length, and a 4-byte `num_args`: the conforming payload
`01 61 00` (message `"a"`, zero args) is not accepted (the first three bytes
are consumed as an incomplete count prefix), while the code's own prefixed
format is. -/
theorem notify_message_list_format :
    parse_list_of_messages [0x01, 0x61, 0x00] = .needMore ∧
    parse_list_of_messages
      [0, 0, 0, 1, 0, 0, 0, 0, 0, 0, 0, 6, 0x01, 0x61, 0, 0, 0, 0] =
      .ok [] (.Messages [⟨[0x61], []⟩]) := by decide

/-- C6: the claim says an input with at least 4 bytes but fewer than
`4 + frame_length` yields `NeedMore` without consuming input.  Fewer than 4
bytes does yield `NeedMore` with the buffer untouched, but a partial frame
body hits `bytes::complete::take` and is returned as a hard error
(`io::Error` from `SpopCodec::decode`), not `NeedMore`: on
`[0,0,0,2,1]` (`frame_length = 2`, one body byte) `parse_frame` fails. -/
theorem partial_frame_not_needmore :
    parse_frame [0, 0, 0] = .needMore ∧
    SpopCodec.decode [0, 0, 0] = .pending [0, 0, 0] ∧
    parse_frame [0, 0, 0, 2, 1] = .fail ∧
    SpopCodec.decode [0, 0, 0, 2, 1] = .ioError := by decide

/-- C7: the claim says frames without FIN are rejected by the parser.  The
constructors do set FIN (`FrameFlags::new(true, _)`,
`AgentHello::metadata`), and `FrameFlags::from_u32` does reject a flags word
with FIN clear — but `parse_frame` never validates the flags word: the
7-byte HAPROXY-HELLO frame with flags `0x00000000` (FIN clear) is returned
as `Ok`, flags and all. -/
theorem fin_flag_status :
    (FrameFlags.new true false).is_fin = true ∧
    (AgentHelloFrame.metadata ⟨[], 0, []⟩).flags.is_fin = true ∧
    FrameFlags.from_u32 0 = none ∧
    FrameFlags.from_u32 2 = none ∧
    parse_frame [0, 0, 0, 7, 1, 0, 0, 0, 0, 0, 0] =
      .ok [] ⟨.HaproxyHello, 0, 0, 0, .KeyValuePairs []⟩ := by decide

/-- C8 counterexample: the claim says more than 10 accumulated bytes fail
with an `Overflow` error; in fact twelve bytes (header, ten continuation
bytes, terminator) decode silently to a (wrapped) value, and the claim's
`NeedMore`-on-truncation holds only for the streaming `parse_varint` — the
`complete`-flavoured `decode_varint` returns a plain error on the truncated
input `[0xF0]`. -/
theorem varint_no_overflow_guard :
    parse_varint
      [0xF0, 0x80, 0x80, 0x80, 0x80, 0x80, 0x80, 0x80, 0x80, 0x80, 0x80,
       0x00] = .ok [] 1161999626690366704 ∧
    decode_varint [0xF0] = .fail := by decide

/-- C8 (amended): on truncated input (continuation bytes with no
terminator) `parse_varint` fails with `NeedMore` while `decode_varint`
fails with a plain parse error; neither has any overflow guard — the loop
simply continues for as many continuation bytes as arrive. -/
theorem varint_truncation_behavior (bs : List Nat) (h : ∀ b ∈ bs, 128 ≤ b) :
    parse_varint (0xF0 :: bs) = .needMore ∧
    decode_varint (0xF0 :: bs) = .fail := by
  have hc := varintCont_all_high bs h 240 4
  constructor
  · simp [parse_varint, hc]
  · simp [decode_varint, hc]

/-- Witness for the amended C8 at the truncated input `F0 80 FF`. -/
theorem varint_truncation_behavior_witness :
    (∀ b ∈ [(0x80 : Nat), 0xFF], 128 ≤ b) ∧
    parse_varint [0xF0, 0x80, 0xFF] = .needMore ∧
    decode_varint [0xF0, 0x80, 0xFF] = .fail :=
  ⟨by decide, varint_truncation_behavior [0x80, 0xFF] (by decide)⟩

/-- C9 counterexample: the claim says a frame whose encoding exceeds the
negotiated `max_frame_size` yields a `FrameTooLarge` error and no bytes.
`AgentHello::serialize` has no size check at all: an `AgentHello`
advertising `max_frame_size = 0` is serialized successfully to 56 bytes. -/
theorem serializer_no_size_check :
    AgentHello.serialize ⟨[0x32, 0x2E, 0x30], 0, []⟩ =
      .ok agentHelloOversized ∧
    agentHelloOversized.length = 56 := by decide

/-- C9 (amended): the serializers check no size limit and have no error
path for it — `AgentHello::serialize` always returns `Ok`, as does
`Frame::serialize` on any KV-list frame, whatever the negotiated
`max_frame_size` may be. -/
theorem serialize_always_ok :
    (∀ ah : AgentHello, ∃ bs : List Nat, AgentHello.serialize ah = .ok bs) ∧
    (∀ (ft : FrameType) (md : Metadata) (kvs : List (List Nat × TypedData)),
      ∃ bs : List Nat, Frame.serialize ⟨ft, md, .KVList kvs⟩ = .ok bs) := by
  constructor
  · intro ah
    exact ⟨_, rfl⟩
  · intro ft md kvs
    exact ⟨_, rfl⟩

/-- C10: when serializing a KV pair or a set-var action, any value that is
not `String` or `UInt32` is silently skipped: the key (resp. the action
header, `nb_args` byte, scope and name) is emitted with no value bytes at
all, serialization still succeeds — and the resulting frame is not
decodable back (the one-pair `Null` frame below parses back as an error
because the parser finds a dangling key). -/
theorem kv_value_silently_skipped :
    (∀ (key : List Nat) (v : TypedData), isSkippedValue v = true →
      serializeKV key v = encode_varint key.length ++ key) ∧
    (∀ (scope : VarScope) (name : List Nat) (v : TypedData),
      isSkippedValue v = true →
      serializeSetVar scope name v =
        [0x01, 0x03, scope.to_u8] ++ encode_varint name.length ++ name) ∧
    Frame.serialize ⟨.HaproxyHello, ⟨FrameFlags.new true false, 0, 0⟩,
        .KVList [([0x61], .Null)]⟩ =
      .ok [0, 0, 0, 9, 1, 0, 0, 0, 1, 0, 0, 1, 0x61] ∧
    parse_frame [0, 0, 0, 9, 1, 0, 0, 0, 1, 0, 0, 1, 0x61] = .fail := by
  refine ⟨?_, ?_, by decide, by decide⟩
  · intro key v hv
    cases v <;> simp [serializeKV] <;> simp [isSkippedValue] at hv
  · intro scope name v hv
    cases v <;> simp [serializeSetVar] <;> simp [isSkippedValue] at hv

/-- Witness for C10 at key `"a"` with a `Null` value and a session-scoped
set-var with a `Bool` value. -/
theorem kv_value_silently_skipped_witness :
    isSkippedValue TypedData.Null = true ∧
    isSkippedValue (TypedData.Bool true) = true ∧
    serializeKV [0x61] .Null =
      encode_varint [(0x61 : Nat)].length ++ [0x61] ∧
    serializeSetVar .Session [0x61] (.Bool true) =
      [0x01, 0x03, VarScope.Session.to_u8] ++
        encode_varint [(0x61 : Nat)].length ++ [0x61] :=
  ⟨by decide, by decide,
   kv_value_silently_skipped.1 [0x61] .Null (by decide),
   kv_value_silently_skipped.2.1 .Session [0x61] (.Bool true) (by decide)⟩

end Spop
